import Mathlib

/-!
# Verification of the gitcli subprocess execution gateway

A shallow embedding of `cmd/gitserver/internal/git/gitcli` (file
`command.go` of the sourcegraph repository): the typed argument model and
command builder (`argsFromArguments`, `NewCommand`), the error
classification performed at `Wait` time (`commandFailedError`,
`cmdReader.waitCmd`), the wait-once streaming reader (`cmdReader.Read`,
`cmdReader.Close`), the bounded stderr capture (`limitWriter`), the
corruption heuristic (`stdErrIndicatesCorruption`,
`checkMaybeCorruptRepo`), the maxrss normalization (`rssToByteSize`) and
the adaptive honeycomb sample rate (`HoneySampleRate`).

Go strings are Lean `String`s, byte slices are kept as `String`s where
only their text matters, machine integers that never overflow in the
modelled paths are `Int`/`Nat`.  Side effects (logging, tracing, metrics)
are dropped; the config write performed by `checkMaybeCorruptRepo` is
reified as a value so its context and its irrelevance to the returned
classification can be stated.
-/

set_option autoImplicit false

/-- Boolean prefix test on strings, by their character lists.  Used to
embed the two anchored POSIX regexes of the corruption heuristic, whose
patterns are `^`-anchored literal alternations, and the `-` check of
`checkSpecArgSafety`. -/
def strStartsWith (p s : String) : Bool :=
  p.data.isPrefixOf s.data

/-- The error values that flow through the gateway.  `contextCanceled` and
`deadlineExceeded` are the two possible non-nil results of Go's
`ctx.Err()`; `exitError` stands for the `*exec.ExitError` returned by
`cmd.Wait()` on non-zero exit; `validationError` is the error returned by
`checkSpecArgSafety`; `unknownArgumentType` is the internal error from the
`default` branch of `argsFromArguments` (carrying the offending Go type
name); `repoCorrupted` is `common.ErrRepoCorrupted` carrying the stderr
text as its reason; `commandFailed` is `*CommandFailedError` with its
`Inner`, `args`, `Stderr` and `ExitStatus` fields; `ioEOF` is `io.EOF`;
`otherError` covers any remaining opaque error value. -/
inductive GoError where
  | contextCanceled
  | deadlineExceeded
  | exitError (code : Int)
  | validationError (msg : String)
  | unknownArgumentType (typeName : String)
  | repoCorrupted (reason : String)
  | commandFailed (inner : GoError) (args : List String) (stderr : String) (exitStatus : Int)
  | ioEOF
  | otherError (msg : String)
deriving DecidableEq, Repr

/-- `errors.Unwrap` as seen on the gateway's error values:
`(*CommandFailedError).Unwrap` returns the `Inner` field; none of the
other error kinds surfaced by this file implement `Unwrap`, so unwrapping
them yields nothing. -/
def GoError.unwrap : GoError → Option GoError
  | .commandFailed inner _ _ _ => some inner
  | _ => none

/-- The closed `Argument` interface of the gitcli package.  The four Go
implementations are `FlagArgument`, `SpecSafeValueArgument`,
`ValueFlagArgument` and `ConfigArgument`; `unknownArgument` stands for a
hypothetical further implementation of the interface (the Go interface is
sealed against outside packages but the `switch` in `argsFromArguments`
still has a `default` branch for it, carrying the dynamic type name). -/
inductive Argument where
  | flagArgument (s : String)
  | specSafeValueArgument (s : String)
  | valueFlagArgument (flag : String) (value : String)
  | configArgument (key : String) (value : String)
  | unknownArgument (typeName : String)
deriving DecidableEq, Repr

/-- Modelled from the spec: `checkSpecArgSafety` is not part of the
sampled sources (only its call site in `argsFromArguments` is); the spec
states that a SpecSafeValue that starts with `-` is rejected with a
validation error so that externally supplied values are never parsed as
flags. -/
def checkSpecArgSafety (arg : String) : Except GoError Unit :=
  if strStartsWith "-" arg then
    .error (.validationError ("invalid git argument: " ++ arg))
  else
    .ok ()

/-- The argument loop of `gitCLIBackend.argsFromArguments`: walks the
argument list once, accumulating `configFlags` (two tokens `-c` and
`key=value` per `ConfigArgument`, in input order) and `flags` (one token
per other argument, in input order), returning the first error
encountered (`checkSpecArgSafety` failure or unknown argument type). -/
def argsLoop : List Argument → List String → List String →
    Except GoError (List String × List String)
  | [], configFlags, flags => .ok (configFlags, flags)
  | arg :: rest, configFlags, flags =>
    match arg with
    | .flagArgument s => argsLoop rest configFlags (flags ++ [s])
    | .specSafeValueArgument s =>
      match checkSpecArgSafety s with
      | .error e => .error e
      | .ok _ => argsLoop rest configFlags (flags ++ [s])
    | .valueFlagArgument f v => argsLoop rest configFlags (flags ++ [f ++ "=" ++ v])
    | .configArgument k v => argsLoop rest (configFlags ++ ["-c", k ++ "=" ++ v]) flags
    | .unknownArgument t => .error (.unknownArgumentType t)

/-- `gitCLIBackend.argsFromArguments`: the final token list is
`configFlags ++ [subcommand] ++ flags`. -/
def argsFromArguments (subcommand : String) (args : List Argument) :
    Except GoError (List String) :=
  match argsLoop args [] [] with
  | .error e => .error e
  | .ok (configFlags, flags) => .ok (configFlags ++ [subcommand] ++ flags)

/-- A launched git command: the argv handed to `exec.CommandContext`,
program `git` followed by the built tokens.  A value of this type exists
exactly when `NewCommand` has reached the launch step. -/
structure LaunchedCommand where
  argv : List String
deriving DecidableEq, Repr

/-- The argument-handling prefix of `gitCLIBackend.NewCommand`: the token
list is built first and any error is returned before a process is
launched; only on success is the command started (the rest of the Go
function — tracing, timeout installation, process-group setup, pipe
wiring — does not touch the tokens). -/
def NewCommand (subcommand : String) (args : List Argument) :
    Except GoError LaunchedCommand :=
  match argsFromArguments subcommand args with
  | .error e => .error e
  | .ok tokens => .ok { argv := "git" :: tokens }

/-- Order-preserving projection of the config tokens a successful build
emits: two tokens per `ConfigArgument`, nothing for the rest. -/
def configTokens : List Argument → List String
  | [] => []
  | .configArgument k v :: rest => "-c" :: (k ++ "=" ++ v) :: configTokens rest
  | _ :: rest => configTokens rest

/-- Order-preserving projection of the non-config tokens a successful
build emits: one token per non-config argument. -/
def flagTokens : List Argument → List String
  | [] => []
  | .flagArgument s :: rest => s :: flagTokens rest
  | .specSafeValueArgument s :: rest => s :: flagTokens rest
  | .valueFlagArgument f v :: rest => (f ++ "=" ++ v) :: flagTokens rest
  | .configArgument _ _ :: rest => flagTokens rest
  | .unknownArgument _ :: rest => flagTokens rest

/-- `objectOrPackFileCorruptionRegex.MatchString`: the POSIX pattern
`^error: (Could not read|packfile) ` is anchored at the start of the text
and is a literal alternation, so matching is a prefix test against the two
literals. -/
def objectOrPackFileCorruptionMatch (stderr : String) : Bool :=
  strStartsWith "error: Could not read " stderr || strStartsWith "error: packfile " stderr

/-- `commitGraphCorruptionRegex.MatchString`: the POSIX pattern
`^fatal: commit-graph requires overflow generation data but has none` is
an anchored literal. -/
def commitGraphCorruptionMatch (stderr : String) : Bool :=
  strStartsWith "fatal: commit-graph requires overflow generation data but has none" stderr

/-- `stdErrIndicatesCorruption`: either pattern class matching suffices. -/
def stdErrIndicatesCorruption (stderr : String) : Bool :=
  objectOrPackFileCorruptionMatch stderr || commitGraphCorruptionMatch stderr

/-- The contexts a config write can run under: `Ctx.background` is
`context.Background()`; `Ctx.caller i` stands for the caller-supplied
context of invocation `i`. -/
inductive Ctx where
  | background
  | caller (id : Nat)
deriving DecidableEq, Repr

/-- The git config key `sourcegraph.maybeCorruptRepo`. -/
def gitConfigMaybeCorrupt : String := "sourcegraph.maybeCorruptRepo"

/-- A reified `git.Config().Set` call: the context it runs under and the
key/value written. -/
structure ConfigWriteAttempt where
  ctx : Ctx
  key : String
  value : String
deriving DecidableEq, Repr

/-- `checkMaybeCorruptRepo`: returns whether stderr indicates corruption,
together with the config write it attempts on a match.  `writeOk` is
whether that `Set` call would succeed — on failure the Go code only logs
and still returns `true`, so the result cannot depend on it.  `now` is the
unix timestamp written as the marker value.  The write always uses
`context.Background()`, never the caller's context. -/
def checkMaybeCorruptRepo (writeOk : Bool) (now : Int) (stderr : String) :
    Bool × Option ConfigWriteAttempt :=
  if stdErrIndicatesCorruption stderr then
    -- the marker write is attempted; `writeOk = false` is only logged
    (true, some { ctx := .background, key := gitConfigMaybeCorrupt,
                  value := toString now })
  else
    (false, none)

/-- `commandFailedError`: a non-nil `ctx.Err()` is returned as-is,
otherwise a `*CommandFailedError` is built wrapping the wait error and
carrying argv, captured stderr and the exit status. -/
def commandFailedError (ctxErr : Option GoError) (err : GoError)
    (args : List String) (stderr : String) (exitStatus : Int) : GoError :=
  match ctxErr with
  | some ce => ce
  | none => .commandFailed err args stderr exitStatus

/-- The error classification inside `cmdReader.waitCmd`'s once-guarded
block: a nil wait result stays nil; a non-nil one is replaced by
`ErrRepoCorrupted` when `checkMaybeCorruptRepo` matches the captured
stderr, and by `commandFailedError` otherwise.  `writeOk`/`now` are
threaded to the marker write exactly as in the source. -/
def classifyWait (writeOk : Bool) (now : Int) (ctxErr : Option GoError)
    (args : List String) (exitStatus : Int) (stderr : String) :
    Option GoError → Option GoError
  | none => none
  | some waitErr =>
    if (checkMaybeCorruptRepo writeOk now stderr).1 then
      some (.repoCorrupted stderr)
    else
      some (commandFailedError ctxErr waitErr args stderr exitStatus)

/-- The per-invocation facts `cmdReader.waitCmd` consults: the outcome of
the underlying `cmd.Wait()` (`rawWait`, `none` for a nil error), the
caller context's error state at wait time, the captured stderr, argv and
exit status, and the environment of the marker write. -/
structure WaitEnv where
  writeOk : Bool
  now : Int
  ctxErr : Option GoError
  args : List String
  exitStatus : Int
  stderr : String
  rawWait : Option GoError
deriving DecidableEq, Repr

/-- The mutable state of a `cmdReader` that the wait-once logic touches:
whether `waitOnce` has fired, the memoized `rc.err`, and a count of how
often the underlying OS `cmd.Wait()` has actually been invoked (in the Go
code this is the body of `waitOnce.Do`; the count is the ghost variable
the wait-once invariant is about). -/
structure CmdReaderState where
  waited : Bool
  memoErr : Option GoError
  osWaitCount : Nat
deriving DecidableEq, Repr

/-- A freshly launched invocation: `waitOnce` not fired, no memoized
error, no OS wait performed. -/
def CmdReaderState.fresh : CmdReaderState :=
  { waited := false, memoErr := none, osWaitCount := 0 }

/-- `cmdReader.waitCmd`: under the mutex, `waitOnce.Do` runs the OS wait
and the classification at most once and memoizes the resulting `rc.err`;
every later call returns the memoized value unchanged.  (The trace/span
finishing and context cancellation inside the once-block carry no data
relevant to the claims and are dropped.) -/
def waitCmd (env : WaitEnv) (s : CmdReaderState) :
    Option GoError × CmdReaderState :=
  if s.waited then
    (s.memoErr, s)
  else
    let e := classifyWait env.writeOk env.now env.ctxErr env.args
      env.exitStatus env.stderr env.rawWait
    (e, { waited := true, memoErr := e, osWaitCount := s.osWaitCount + 1 })

/-- One underlying `rc.stdout.Read` outcome: `ok n` bytes with a nil
error, `eof n` bytes together with `io.EOF`, or `readErr n e` bytes with
some other read error. -/
inductive ReadOutcome where
  | ok (n : Nat)
  | eof (n : Nat)
  | readErr (n : Nat) (e : GoError)
deriving DecidableEq, Repr

/-- `cmdReader.Read`: forwards the stdout read; on `io.EOF` it performs
the one-time wait and, if that produced a non-nil error, returns it in
place of `io.EOF`; otherwise `io.EOF` itself is surfaced. -/
def CmdReader.Read (env : WaitEnv) (s : CmdReaderState) :
    ReadOutcome → (Nat × Option GoError) × CmdReaderState
  | .ok n => ((n, none), s)
  | .readErr n e => ((n, some e), s)
  | .eof n =>
    match waitCmd env s with
    | (some e, s') => ((n, some e), s')
    | (none, s') => ((n, some .ioEOF), s')

/-- `cmdReader.Close`: performs the one-time wait and returns its
outcome. -/
def CmdReader.Close (env : WaitEnv) (s : CmdReaderState) :
    Option GoError × CmdReaderState :=
  waitCmd env s

/-- One caller-visible operation on a `cmdReader`: a `Read` whose
underlying stdout read has the given outcome, or a `Close`. -/
inductive ReaderOp where
  | read (r : ReadOutcome)
  | close
deriving DecidableEq, Repr

/-- Whether an operation reaches `waitCmd`: every `Close` does, a `Read`
only when the underlying stdout read returned `io.EOF`. -/
def ReaderOp.triggersWait : ReaderOp → Bool
  | .read (.eof _) => true
  | .read _ => false
  | .close => true

/-- Apply one reader operation to the state. -/
def stepReader (env : WaitEnv) (s : CmdReaderState) : ReaderOp → CmdReaderState
  | .read r => (CmdReader.Read env s r).2
  | .close => (CmdReader.Close env s).2

/-- Run a sequence of reader operations from a state. -/
def runReader (env : WaitEnv) : List ReaderOp → CmdReaderState → CmdReaderState
  | [], s => s
  | op :: ops, s => runReader env ops (stepReader env s op)

/-- `maxStderrCapture`: the stderr capture cap in bytes. -/
def maxStderrCapture : Nat := 1024

/-- `limitWriter`: writes to the underlying `bytes.Buffer` (`buf`, which
always accepts a full write with a nil error) but discards once `n`
remaining bytes are exhausted.  In the Go code `N` is an `int`; it starts
at the positive cap and each write subtracts at most the current `N`, so
it never becomes negative and `Nat` is faithful (`l.N <= 0` is `n = 0`). -/
structure LimitWriter where
  buf : List UInt8
  n : Nat
deriving DecidableEq, Repr

/-- `limitWriter.Write`: once the budget is exhausted the input is
swallowed whole, reported as fully written with a nil error; otherwise the
input is truncated to the budget, written to the buffer, and — when this
write exhausts the budget — the discarded remainder is included in the
reported count. -/
def LimitWriter.Write (l : LimitWriter) (p : List UInt8) :
    (Nat × Option GoError) × LimitWriter :=
  if l.n = 0 then
    ((p.length, none), l)
  else
    let origLen := p.length
    let p' := if p.length > l.n then p.take l.n else p
    -- bytes.Buffer.Write consumes all of p' and returns a nil error
    let written := p'.length
    let n' := l.n - written
    let reported := if n' = 0 then origLen else written
    ((reported, none), { buf := l.buf ++ p', n := n' })

/-- `stderrBuffer`: the limit writer wrapping a fresh buffer with the
1024-byte cap. -/
def stderrBuffer : LimitWriter :=
  { buf := [], n := maxStderrCapture }

/-- Run a sequence of writes against a limit writer, keeping the final
writer state. -/
def runWrites : List (List UInt8) → LimitWriter → LimitWriter
  | [], l => l
  | p :: ps, l => runWrites ps (l.Write p).2

/-- Modelled from the spec: the `bytesize` package is not part of the
sampled sources; per the spec's normalization contract, `B` is one byte
and `KiB` is 1024 bytes. -/
def bytesizeB : Int := 1

/-- Modelled from the spec: `bytesize.KiB`, 1024 bytes. -/
def bytesizeKiB : Int := 1024

/-- `rssToByteSize`, with the compile-time `runtime.GOOS` made an explicit
parameter: darwin reports maxrss in bytes, every other platform in
kibibytes. -/
def rssToByteSize (goos : String) (rss : Int) : Int :=
  if goos = "darwin" then rss * bytesizeB else rss * bytesizeKiB

/-- Modelled from the spec: the `actor` package is not part of the sampled
sources.  An actor carries a numeric UID and an internal marker;
`IsInternal` reports the marker. -/
structure Actor where
  UID : Int
  internalFlag : Bool
deriving DecidableEq, Repr

/-- Modelled from the spec: `actor.IsInternal()` reports whether the actor
is marked internal. -/
def Actor.IsInternal (a : Actor) : Bool := a.internalFlag

/-- `HoneySampleRate`: an actor is treated as internal when marked so or
when its UID is 0; internal rev-parse/rev-list/config traffic is sampled
1 in 2^14, other internal traffic 1 in 16, everything else 1 in 8. -/
def HoneySampleRate (cmd : String) (a : Actor) : Nat :=
  let internal := a.IsInternal || a.UID == 0
  if (cmd = "rev-parse" || cmd = "rev-list" || cmd = "config") && internal then
    1 <<< 14
  else if internal then
    16
  else
    8

/-- `shortGitCommandSlow`, in milliseconds. -/
def shortGitCommandSlow (subcommand : String) : Nat :=
  if subcommand = "archive" then 60000
  else if subcommand = "blame" || subcommand = "ls-tree" || subcommand = "log"
      || subcommand = "show" then 5000
  else if subcommand = "fetch" then 10000
  else 2500

deriving instance DecidableEq for Except

/-- An argument the builder rejects: a SpecSafeValue starting with `-`, or
a shape outside the four known variants. -/
def badArgument : Argument → Bool
  | .specSafeValueArgument s => strStartsWith "-" s
  | .unknownArgument _ => true
  | _ => false

theorem argsLoop_ok_eq : ∀ (args : List Argument) (cf fl cf' fl' : List String),
    argsLoop args cf fl = .ok (cf', fl') →
    cf' = cf ++ configTokens args ∧ fl' = fl ++ flagTokens args := by
  intro args
  induction args with
  | nil =>
    intro cf fl cf' fl' h
    simp only [argsLoop, Except.ok.injEq, Prod.mk.injEq] at h
    simp [configTokens, flagTokens, h.1, h.2]
  | cons a rest ih =>
    intro cf fl cf' fl' h
    cases a with
    | flagArgument s =>
      have hr := ih cf (fl ++ [s]) cf' fl' (by simpa [argsLoop] using h)
      simp [configTokens, flagTokens, hr.1, hr.2]
    | specSafeValueArgument s =>
      by_cases hs : strStartsWith "-" s
      · simp [argsLoop, checkSpecArgSafety, hs] at h
      · have hr := ih cf (fl ++ [s]) cf' fl'
          (by simpa [argsLoop, checkSpecArgSafety, hs] using h)
        simp [configTokens, flagTokens, hr.1, hr.2]
    | valueFlagArgument f v =>
      have hr := ih cf (fl ++ [f ++ "=" ++ v]) cf' fl' (by simpa [argsLoop] using h)
      simp [configTokens, flagTokens, hr.1, hr.2]
    | configArgument k v =>
      have hr := ih (cf ++ ["-c", k ++ "=" ++ v]) fl cf' fl' (by simpa [argsLoop] using h)
      simp [configTokens, flagTokens, hr.1, hr.2]
    | unknownArgument t =>
      simp [argsLoop] at h

theorem argsLoop_error_of_bad : ∀ (args : List Argument) (cf fl : List String),
    args.any badArgument = true → ∃ e, argsLoop args cf fl = .error e := by
  intro args
  induction args with
  | nil => intro cf fl h; simp at h
  | cons a rest ih =>
    intro cf fl h
    cases a with
    | flagArgument s =>
      simp only [List.any_cons, badArgument, Bool.false_or] at h
      simpa [argsLoop] using ih cf (fl ++ [s]) h
    | specSafeValueArgument s =>
      by_cases hs : strStartsWith "-" s
      · exact ⟨GoError.validationError ("invalid git argument: " ++ s),
          by simp [argsLoop, checkSpecArgSafety, hs]⟩
      · simp only [List.any_cons, badArgument, hs, Bool.false_or] at h
        simpa [argsLoop, checkSpecArgSafety, hs] using ih cf (fl ++ [s]) h
    | valueFlagArgument f v =>
      simp only [List.any_cons, badArgument, Bool.false_or] at h
      simpa [argsLoop] using ih cf (fl ++ [f ++ "=" ++ v]) h
    | configArgument k v =>
      simp only [List.any_cons, badArgument, Bool.false_or] at h
      simpa [argsLoop] using ih (cf ++ ["-c", k ++ "=" ++ v]) fl h
    | unknownArgument t =>
      exact ⟨GoError.unknownArgumentType t, by simp [argsLoop]⟩

theorem newCommand_error_of_bad (sub : String) (args : List Argument)
    (h : args.any badArgument = true) : ∃ e, NewCommand sub args = .error e := by
  obtain ⟨e, he⟩ := argsLoop_error_of_bad args [] [] h
  exact ⟨e, by simp [NewCommand, argsFromArguments, he]⟩

/-- C2: for every subcommand and argument sequence, a successful build
places all ConfigOverride pairs first (two tokens each, in input order),
then the subcommand, then all other arguments in input order; in
particular subcommand `log` with ConfigOverride `{core.test, 1}` and
SpecSafeValue `HEAD` builds exactly `["-c", "core.test=1", "log",
"HEAD"]`. -/
theorem argsFromArguments_ordering :
    (∀ (subcommand : String) (args : List Argument) (out : List String),
       argsFromArguments subcommand args = .ok out →
       out = configTokens args ++ [subcommand] ++ flagTokens args)
    ∧ argsFromArguments "log"
        [.configArgument "core.test" "1", .specSafeValueArgument "HEAD"] =
        .ok ["-c", "core.test=1", "log", "HEAD"] := by
  constructor
  · intro sub args out h
    unfold argsFromArguments at h
    cases heq : argsLoop args [] [] with
    | error e => rw [heq] at h; cases h
    | ok p =>
      obtain ⟨cf, fl⟩ := p
      rw [heq] at h
      obtain ⟨h1, h2⟩ := argsLoop_ok_eq args [] [] cf fl heq
      simp only [Except.ok.injEq] at h
      simp [← h, h1, h2]
  · decide

/-- Witness for C2 at the concrete end-to-end scenario. -/
theorem argsFromArguments_ordering_witness :
    argsFromArguments "log"
      [.configArgument "core.test" "1", .specSafeValueArgument "HEAD"] =
      .ok ["-c", "core.test=1", "log", "HEAD"]
    ∧ ["-c", "core.test=1", "log", "HEAD"] =
        configTokens [.configArgument "core.test" "1", .specSafeValueArgument "HEAD"]
          ++ ["log"]
          ++ flagTokens [.configArgument "core.test" "1", .specSafeValueArgument "HEAD"] :=
  ⟨argsFromArguments_ordering.2,
   argsFromArguments_ordering.1 "log"
     [.configArgument "core.test" "1", .specSafeValueArgument "HEAD"]
     ["-c", "core.test=1", "log", "HEAD"] (by decide)⟩

/-- C3: a SpecSafeValue beginning with `-` anywhere in the argument list
makes `NewCommand` return an error before the launch step (no
`LaunchedCommand` exists), the rejection being `checkSpecArgSafety`'s
validation error; and an argument outside the four variants makes the
build fail, the loop rejecting it with the internal unknown-argument-type
error. -/
theorem newCommand_rejects_invalid_arguments :
    (∀ (sub : String) (args : List Argument) (s : String),
       Argument.specSafeValueArgument s ∈ args → strStartsWith "-" s = true →
       ∃ e, NewCommand sub args = .error e)
    ∧ (∀ (sub : String) (args : List Argument) (t : String),
       Argument.unknownArgument t ∈ args →
       ∃ e, NewCommand sub args = .error e)
    ∧ (∀ s : String, strStartsWith "-" s = true →
       checkSpecArgSafety s = .error (.validationError ("invalid git argument: " ++ s)))
    ∧ (∀ (cf fl : List String) (t : String) (rest : List Argument),
       argsLoop (.unknownArgument t :: rest) cf fl = .error (.unknownArgumentType t)) := by
  refine ⟨?_, ?_, ?_, ?_⟩
  · intro sub args s hmem hs
    refine newCommand_error_of_bad sub args ?_
    exact List.any_eq_true.mpr ⟨_, hmem, by simp [badArgument, hs]⟩
  · intro sub args t hmem
    refine newCommand_error_of_bad sub args ?_
    exact List.any_eq_true.mpr ⟨_, hmem, by simp [badArgument]⟩
  · intro s hs
    simp [checkSpecArgSafety, hs]
  · intro cf fl t rest
    simp [argsLoop]

/-- Witness for C3: the ref name `-rf` and an unknown argument shape are
both rejected. -/
theorem newCommand_rejects_invalid_arguments_witness :
    (∃ e, NewCommand "log" [.specSafeValueArgument "-rf"] = .error e)
    ∧ (∃ e, NewCommand "log" [.unknownArgument "gitcli.rogueArgument"] = .error e)
    ∧ checkSpecArgSafety "-rf" = .error (.validationError "invalid git argument: -rf")
    ∧ argsLoop [.unknownArgument "gitcli.rogueArgument"] [] [] =
        .error (.unknownArgumentType "gitcli.rogueArgument") :=
  ⟨newCommand_rejects_invalid_arguments.1 "log" [.specSafeValueArgument "-rf"] "-rf"
     (by decide) (by decide),
   newCommand_rejects_invalid_arguments.2.1 "log"
     [.unknownArgument "gitcli.rogueArgument"] "gitcli.rogueArgument" (by decide),
   newCommand_rejects_invalid_arguments.2.2.1 "-rf" (by decide),
   newCommand_rejects_invalid_arguments.2.2.2 [] [] "gitcli.rogueArgument" []⟩

/-- C6: the corruption heuristic classifies
`error: Could not read abc123` as corruption, does not classify
`fatal: unknown flag`, and in general reports a match exactly when the
object/packfile pattern or the commit-graph overflow pattern matches. -/
theorem stdErrIndicatesCorruption_spec :
    stdErrIndicatesCorruption "error: Could not read abc123" = true
    ∧ stdErrIndicatesCorruption "fatal: unknown flag" = false
    ∧ ∀ s : String, stdErrIndicatesCorruption s =
        (objectOrPackFileCorruptionMatch s || commitGraphCorruptionMatch s) := by
  refine ⟨by decide, by decide, ?_⟩
  intro s
  rfl

/-- C1 counterexample: a non-zero exit under an already-canceled context
whose stderr matches the corruption pattern surfaces `ErrRepoCorrupted`,
not the cancellation error — the corruption check runs before
`commandFailedError` ever consults `ctx.Err()`. -/
theorem cancellationPriority_cex :
    classifyWait true 0 (some GoError.contextCanceled) ["git", "log"] 128
        "error: Could not read abc123" (some (GoError.exitError 128)) =
      some (GoError.repoCorrupted "error: Could not read abc123")
    ∧ some (GoError.repoCorrupted "error: Could not read abc123") ≠
        some GoError.contextCanceled := by
  constructor
  · decide
  · decide

/-- C1 (amended): when the subprocess exits non-zero and the captured
stderr does not match the corruption heuristic, an already-canceled caller
context makes the Wait step surface the cancellation error instead of the
generic CommandFailedError; the corruption classification, however, is
checked first and takes priority over cancellation. -/
theorem cancellationPriority_over_generic
    (writeOk : Bool) (now : Int) (ce : GoError) (args : List String)
    (exitStatus : Int) (stderr : String) (waitErr : GoError)
    (hcorr : stdErrIndicatesCorruption stderr = false) :
    classifyWait writeOk now (some ce) args exitStatus stderr (some waitErr) =
      some ce := by
  simp [classifyWait, checkMaybeCorruptRepo, hcorr, commandFailedError]

/-- Witness for C1 (amended): canceled context, non-corrupt stderr. -/
theorem cancellationPriority_over_generic_witness :
    classifyWait true 0 (some GoError.contextCanceled) ["git", "log"] 1
        "fatal: unknown flag" (some (GoError.exitError 1)) =
      some GoError.contextCanceled :=
  cancellationPriority_over_generic true 0 GoError.contextCanceled ["git", "log"]
    1 "fatal: unknown flag" (GoError.exitError 1) (by decide)

/-- C5 counterexample: on a non-zero exit whose stderr matches the
corruption pattern, the outcome of the Wait step is the RepoCorrupted
signal, which does not wrap the process-wait error — unwrapping it yields
nothing, so the original cause is not recoverable. -/
theorem waitOutcome_unwrap_cex :
    classifyWait true 0 none ["git", "log"] 128
        "error: Could not read abc123" (some (GoError.exitError 128)) =
      some (GoError.repoCorrupted "error: Could not read abc123")
    ∧ GoError.unwrap (GoError.repoCorrupted "error: Could not read abc123") = none := by
  constructor
  · decide
  · decide

/-- C5 (amended): on non-zero exit with no cancellation and no corruption
match, the Wait step returns a CommandFailedError wrapping the
process-wait error, recoverable via Unwrap; the cancellation outcome is
the context's own error, and the RepoCorrupted signal carries the stderr
text instead of wrapping the process-wait error. -/
theorem waitOutcome_unwrap
    (writeOk : Bool) (now : Int) (args : List String) (exitStatus : Int)
    (stderr : String) (waitErr : GoError)
    (hcorr : stdErrIndicatesCorruption stderr = false) :
    classifyWait writeOk now none args exitStatus stderr (some waitErr) =
      some (GoError.commandFailed waitErr args stderr exitStatus)
    ∧ GoError.unwrap (GoError.commandFailed waitErr args stderr exitStatus) =
      some waitErr := by
  constructor
  · simp [classifyWait, checkMaybeCorruptRepo, hcorr, commandFailedError]
  · rfl

/-- Witness for C5 (amended): generic failure on non-corrupt stderr. -/
theorem waitOutcome_unwrap_witness :
    classifyWait true 0 none ["git", "log"] 1 "fatal: unknown flag"
        (some (GoError.exitError 1)) =
      some (GoError.commandFailed (GoError.exitError 1) ["git", "log"]
        "fatal: unknown flag" 1)
    ∧ GoError.unwrap (GoError.commandFailed (GoError.exitError 1) ["git", "log"]
        "fatal: unknown flag" 1) = some (GoError.exitError 1) :=
  waitOutcome_unwrap true 0 ["git", "log"] 1 "fatal: unknown flag"
    (GoError.exitError 1) (by decide)

/-- C8: the corruption marker write is attempted exactly on a heuristic
match, always under the background context (which is distinct from every
caller context), and whether that write succeeds changes neither the
match result nor the classification the invocation returns. -/
theorem checkMaybeCorruptRepo_besteffort :
    (∀ (ok1 ok2 : Bool) (now : Int) (s : String),
       (checkMaybeCorruptRepo ok1 now s).1 = (checkMaybeCorruptRepo ok2 now s).1)
    ∧ (∀ (ok : Bool) (now : Int) (s : String),
       (checkMaybeCorruptRepo ok now s).1 = stdErrIndicatesCorruption s)
    ∧ (∀ (ok : Bool) (now : Int) (s : String),
       (checkMaybeCorruptRepo ok now s).2 =
         if stdErrIndicatesCorruption s then
           some { ctx := Ctx.background, key := gitConfigMaybeCorrupt,
                  value := toString now }
         else none)
    ∧ (∀ i : Nat, Ctx.background ≠ Ctx.caller i)
    ∧ (∀ (ok1 ok2 : Bool) (now : Int) (ctxErr : Option GoError)
         (args : List String) (exitStatus : Int) (s : String)
         (w : Option GoError),
       classifyWait ok1 now ctxErr args exitStatus s w =
         classifyWait ok2 now ctxErr args exitStatus s w) := by
  refine ⟨?_, ?_, ?_, ?_, ?_⟩
  · intro ok1 ok2 now s
    simp [checkMaybeCorruptRepo]
  · intro ok now s
    by_cases h : stdErrIndicatesCorruption s <;> simp [checkMaybeCorruptRepo, h]
  · intro ok now s
    by_cases h : stdErrIndicatesCorruption s <;> simp [checkMaybeCorruptRepo, h]
  · intro i h
    cases h
  · intro ok1 ok2 now ctxErr args exitStatus s w
    cases w with
    | none => rfl
    | some we => simp [classifyWait, checkMaybeCorruptRepo]

/-- Witness for C8: a corrupt stderr attempts the background-context
marker write under both a failing and a succeeding write, with the same
returned match. -/
theorem checkMaybeCorruptRepo_besteffort_witness :
    (checkMaybeCorruptRepo false 17 "error: Could not read abc123").1 =
      (checkMaybeCorruptRepo true 17 "error: Could not read abc123").1
    ∧ (checkMaybeCorruptRepo false 17 "error: Could not read abc123").2 =
        (if stdErrIndicatesCorruption "error: Could not read abc123" then
          some { ctx := Ctx.background, key := gitConfigMaybeCorrupt,
                 value := toString (17 : Int) }
         else none)
    ∧ Ctx.background ≠ Ctx.caller 0
    ∧ classifyWait false 17 none ["git", "log"] 128
        "error: Could not read abc123" (some (GoError.exitError 128)) =
      classifyWait true 17 none ["git", "log"] 128
        "error: Could not read abc123" (some (GoError.exitError 128)) :=
  ⟨checkMaybeCorruptRepo_besteffort.1 false true 17 "error: Could not read abc123",
   checkMaybeCorruptRepo_besteffort.2.2.1 false 17 "error: Could not read abc123",
   checkMaybeCorruptRepo_besteffort.2.2.2.1 0,
   checkMaybeCorruptRepo_besteffort.2.2.2.2 false true 17 none ["git", "log"] 128
     "error: Could not read abc123" (some (GoError.exitError 128))⟩

/-- C9: maxrss normalization — on darwin the raw value is already bytes
and is returned unchanged; on every other platform it is interpreted as
kibibytes and multiplied by 1024. -/
theorem rssToByteSize_normalization :
    (∀ rss : Int, rssToByteSize "darwin" rss = rss)
    ∧ (∀ (goos : String) (rss : Int), goos ≠ "darwin" →
        rssToByteSize goos rss = rss * 1024) := by
  constructor
  · intro rss
    simp [rssToByteSize, bytesizeB]
  · intro goos rss h
    simp [rssToByteSize, bytesizeKiB, h]

/-- Witness for C9: darwin passes through, linux multiplies by 1024. -/
theorem rssToByteSize_normalization_witness :
    rssToByteSize "darwin" 7 = 7 ∧ rssToByteSize "linux" 5 = 5 * 1024 :=
  ⟨rssToByteSize_normalization.1 7,
   rssToByteSize_normalization.2 "linux" 5 (by decide)⟩

/-- C10: UID 0 forces internal treatment regardless of the internal
marker; internal rev-parse/rev-list/config traffic is sampled at 16384,
all other internal traffic at 16, external traffic at 8; hence for every
subcommand the internal rate is at least the external one. -/
theorem honeySampleRate_spec :
    (∀ (cmd : String) (a : Actor), a.UID = 0 →
       HoneySampleRate cmd a = HoneySampleRate cmd { a with internalFlag := true })
    ∧ (∀ a : Actor, (a.IsInternal || a.UID == 0) = true →
       HoneySampleRate "rev-parse" a = 16384
       ∧ HoneySampleRate "rev-list" a = 16384
       ∧ HoneySampleRate "config" a = 16384)
    ∧ (∀ (cmd : String) (a : Actor), (a.IsInternal || a.UID == 0) = true →
       (cmd = "rev-parse" ∨ cmd = "rev-list" ∨ cmd = "config" → False) →
       HoneySampleRate cmd a = 16)
    ∧ (∀ (cmd : String) (a : Actor), (a.IsInternal || a.UID == 0) = false →
       HoneySampleRate cmd a = 8)
    ∧ (∀ (cmd : String) (a b : Actor), (a.IsInternal || a.UID == 0) = true →
       (b.IsInternal || b.UID == 0) = false →
       HoneySampleRate cmd b ≤ HoneySampleRate cmd a) := by
  have hext : ∀ (cmd : String) (a : Actor), (a.IsInternal || a.UID == 0) = false →
      HoneySampleRate cmd a = 8 := by
    intro cmd a h
    simp [HoneySampleRate, h]
  refine ⟨?_, ?_, ?_, ?_, ?_⟩
  · intro cmd a h
    simp [HoneySampleRate, Actor.IsInternal, h]
  · intro a h
    refine ⟨?_, ?_, ?_⟩ <;> simp [HoneySampleRate, h]
  · intro cmd a h hcmd
    have h1 : (cmd = "rev-parse") = False := by
      by_cases hc : cmd = "rev-parse"
      · exact absurd (Or.inl hc) (fun hh => hcmd hh)
      · simp [hc]
    have h2 : (cmd = "rev-list") = False := by
      by_cases hc : cmd = "rev-list"
      · exact absurd (Or.inr (Or.inl hc)) (fun hh => hcmd hh)
      · simp [hc]
    have h3 : (cmd = "config") = False := by
      by_cases hc : cmd = "config"
      · exact absurd (Or.inr (Or.inr hc)) (fun hh => hcmd hh)
      · simp [hc]
    simp [HoneySampleRate, h, h1, h2, h3]
  · exact hext
  · intro cmd a b ha hb
    rw [hext cmd b hb]
    by_cases hc : (cmd = "rev-parse" || cmd = "rev-list" || cmd = "config") = true
    · simp [HoneySampleRate, ha, hc]
    · simp only [Bool.not_eq_true] at hc
      simp [HoneySampleRate, ha, hc]

/-- Witness for C10: a non-internal actor with UID 0 gets the internal
rates; an external actor gets 8, never more than the internal rate. -/
theorem honeySampleRate_spec_witness :
    HoneySampleRate "rev-parse" { UID := 0, internalFlag := false } =
      HoneySampleRate "rev-parse" { UID := 0, internalFlag := true }
    ∧ HoneySampleRate "rev-parse" { UID := 0, internalFlag := false } = 16384
    ∧ HoneySampleRate "fetch" { UID := 0, internalFlag := false } = 16
    ∧ HoneySampleRate "fetch" { UID := 42, internalFlag := false } = 8
    ∧ HoneySampleRate "fetch" { UID := 42, internalFlag := false } ≤
        HoneySampleRate "fetch" { UID := 0, internalFlag := false } :=
  ⟨honeySampleRate_spec.1 "rev-parse" { UID := 0, internalFlag := false } rfl,
   (honeySampleRate_spec.2.1 { UID := 0, internalFlag := false } (by decide)).1,
   honeySampleRate_spec.2.2.1 "fetch" { UID := 0, internalFlag := false } (by decide)
     (by intro h; rcases h with h | h | h <;> simp at h),
   honeySampleRate_spec.2.2.2.1 "fetch" { UID := 42, internalFlag := false } (by decide),
   honeySampleRate_spec.2.2.2.2 "fetch" { UID := 0, internalFlag := false }
     { UID := 42, internalFlag := false } (by decide) (by decide)⟩

theorem waitCmd_of_waited (env : WaitEnv) (s : CmdReaderState)
    (h : s.waited = true) : waitCmd env s = (s.memoErr, s) := by
  simp [waitCmd, h]

theorem stepReader_of_waited (env : WaitEnv) (s : CmdReaderState)
    (op : ReaderOp) (h : s.waited = true) : stepReader env s op = s := by
  cases op with
  | close => simp [stepReader, CmdReader.Close, waitCmd, h]
  | read r =>
    cases r with
    | ok n => rfl
    | readErr n e => rfl
    | eof n =>
      cases hm : s.memoErr <;>
        simp [stepReader, CmdReader.Read, waitCmd, h, hm]

theorem stepReader_trigger_of_unwaited (env : WaitEnv) (s : CmdReaderState)
    (op : ReaderOp) (h : s.waited = false) (ht : op.triggersWait = true) :
    stepReader env s op =
      { waited := true,
        memoErr := classifyWait env.writeOk env.now env.ctxErr env.args
          env.exitStatus env.stderr env.rawWait,
        osWaitCount := s.osWaitCount + 1 } := by
  cases op with
  | close => simp [stepReader, CmdReader.Close, waitCmd, h]
  | read r =>
    cases r with
    | ok n => cases ht
    | readErr n e => cases ht
    | eof n =>
      cases hc : classifyWait env.writeOk env.now env.ctxErr env.args
          env.exitStatus env.stderr env.rawWait <;>
        simp [stepReader, CmdReader.Read, waitCmd, h, hc]

theorem stepReader_of_no_trigger (env : WaitEnv) (s : CmdReaderState)
    (op : ReaderOp) (ht : op.triggersWait = false) : stepReader env s op = s := by
  cases op with
  | close => cases ht
  | read r =>
    cases r with
    | ok n => rfl
    | readErr n e => rfl
    | eof n => cases ht

theorem runReader_osWaitCount (env : WaitEnv) : ∀ (ops : List ReaderOp)
    (s : CmdReaderState),
    (runReader env ops s).osWaitCount =
      if s.waited then s.osWaitCount
      else if ops.any ReaderOp.triggersWait then s.osWaitCount + 1
      else s.osWaitCount := by
  intro ops
  induction ops with
  | nil =>
    intro s
    by_cases h : s.waited <;> simp [runReader, h]
  | cons op ops ih =>
    intro s
    by_cases h : s.waited
    · rw [runReader, stepReader_of_waited env s op h, ih s]
      simp [h]
    · rw [Bool.not_eq_true] at h
      by_cases ht : op.triggersWait
      · rw [runReader, stepReader_trigger_of_unwaited env s op h ht, ih]
        simp [h, ht]
      · rw [Bool.not_eq_true] at ht
        rw [runReader, stepReader_of_no_trigger env s op ht, ih s]
        simp [h, ht]

/-- C4: over any interleaving of Reads and Closes of one invocation, the
underlying OS wait runs exactly once as soon as some operation triggers it
(an EOF-observing Read or any Close), and never at all otherwise; once the
wait has run, a further Close returns the memoized outcome with the state
untouched, and a trailing Read observing EOF returns the memoized error
(or `io.EOF` when the memoized outcome is nil) with the state untouched. -/
theorem waitCmd_once_memoized :
    (∀ (env : WaitEnv) (ops : List ReaderOp),
       (runReader env ops CmdReaderState.fresh).osWaitCount =
         if ops.any ReaderOp.triggersWait then 1 else 0)
    ∧ (∀ (env : WaitEnv) (s : CmdReaderState), s.waited = true →
       CmdReader.Close env s = (s.memoErr, s))
    ∧ (∀ (env : WaitEnv) (s : CmdReaderState) (n : Nat), s.waited = true →
       CmdReader.Read env s (.eof n) =
         ((n, some (s.memoErr.getD GoError.ioEOF)), s)) := by
  refine ⟨?_, ?_, ?_⟩
  · intro env ops
    rw [runReader_osWaitCount env ops CmdReaderState.fresh]
    simp [CmdReaderState.fresh]
  · intro env s h
    simp [CmdReader.Close, waitCmd, h]
  · intro env s n h
    cases hm : s.memoErr <;>
      simp [CmdReader.Read, waitCmd, h, hm]

/-- Witness for C4: an EOF-observing Read followed by two Closes runs the
OS wait once, and post-wait Close/Read return the memoized outcome. -/
theorem waitCmd_once_memoized_witness :
    (runReader
        { writeOk := true, now := 0, ctxErr := none, args := ["git", "log"],
          exitStatus := 0, stderr := "", rawWait := none }
        [.read (.eof 0), .close, .close] CmdReaderState.fresh).osWaitCount = 1
    ∧ CmdReader.Close
        { writeOk := true, now := 0, ctxErr := none, args := ["git", "log"],
          exitStatus := 0, stderr := "", rawWait := none }
        { waited := true, memoErr := some (GoError.exitError 1), osWaitCount := 1 } =
      (some (GoError.exitError 1),
       { waited := true, memoErr := some (GoError.exitError 1), osWaitCount := 1 })
    ∧ CmdReader.Read
        { writeOk := true, now := 0, ctxErr := none, args := ["git", "log"],
          exitStatus := 0, stderr := "", rawWait := none }
        { waited := true, memoErr := some (GoError.exitError 1), osWaitCount := 1 }
        (.eof 0) =
      ((0, some (GoError.exitError 1)),
       { waited := true, memoErr := some (GoError.exitError 1), osWaitCount := 1 }) := by
  refine ⟨?_, ?_, ?_⟩
  · exact (waitCmd_once_memoized.1
      { writeOk := true, now := 0, ctxErr := none, args := ["git", "log"],
        exitStatus := 0, stderr := "", rawWait := none }
      [.read (.eof 0), .close, .close]).trans (by decide)
  · exact waitCmd_once_memoized.2.1
      { writeOk := true, now := 0, ctxErr := none, args := ["git", "log"],
        exitStatus := 0, stderr := "", rawWait := none }
      { waited := true, memoErr := some (GoError.exitError 1), osWaitCount := 1 } rfl
  · exact (waitCmd_once_memoized.2.2
      { writeOk := true, now := 0, ctxErr := none, args := ["git", "log"],
        exitStatus := 0, stderr := "", rawWait := none }
      { waited := true, memoErr := some (GoError.exitError 1), osWaitCount := 1 }
      0 rfl).trans (by decide)

theorem limitWrite_preserves_budget (l : LimitWriter) (p : List UInt8) :
    (l.Write p).2.buf.length + (l.Write p).2.n = l.buf.length + l.n := by
  unfold LimitWriter.Write
  by_cases h : l.n = 0
  · simp [h]
  · by_cases hp : p.length > l.n
    · simp [h, hp, List.length_take]
      omega
    · simp only [Nat.not_lt] at hp
      simp [h, Nat.not_lt.mpr hp]
      omega

theorem runWrites_preserves_budget : ∀ (ws : List (List UInt8)) (l : LimitWriter),
    (runWrites ws l).buf.length + (runWrites ws l).n = l.buf.length + l.n := by
  intro ws
  induction ws with
  | nil => intro l; simp [runWrites]
  | cons p ps ih =>
    intro l
    rw [runWrites, ih]
    exact limitWrite_preserves_budget l p

/-- C7: across any write sequence the stderr buffer holds at most 1024
bytes; a write crossing the remaining budget keeps only the budgeted
prefix yet reports the full input length (the cap is hit), and once the
budget is zero a write stores nothing, reports its full length and no
error. -/
theorem limitWriter_bounded :
    (∀ ws : List (List UInt8),
       (runWrites ws stderrBuffer).buf.length ≤ maxStderrCapture)
    ∧ (∀ (l : LimitWriter) (p : List UInt8), 0 < l.n → l.n < p.length →
       l.Write p = ((p.length, none), { buf := l.buf ++ p.take l.n, n := 0 }))
    ∧ (∀ (l : LimitWriter) (p : List UInt8), l.n = 0 →
       l.Write p = ((p.length, none), l)) := by
  refine ⟨?_, ?_, ?_⟩
  · intro ws
    have h := runWrites_preserves_budget ws stderrBuffer
    have hb : stderrBuffer.buf.length + stderrBuffer.n = maxStderrCapture := rfl
    rw [hb] at h
    omega
  · intro l p h0 hlt
    have hne : ¬ l.n = 0 := by omega
    have hmin : min l.n p.length = l.n := Nat.min_eq_left (Nat.le_of_lt hlt)
    simp [LimitWriter.Write, hne, hlt, List.length_take, hmin]
  · intro l p h
    simp [LimitWriter.Write, h]

/-- Witness for C7: with 2 budget bytes left, writing 3 bytes stores 2 and
reports 3; with the budget exhausted, writing stores nothing and reports
the full length. -/
theorem limitWriter_bounded_witness :
    LimitWriter.Write { buf := [], n := 2 } [0, 1, 2] =
      ((3, none), { buf := [0, 1], n := 0 })
    ∧ LimitWriter.Write { buf := [0, 1], n := 0 } [5, 6] =
      ((2, none), { buf := [0, 1], n := 0 }) := by
  constructor
  · exact (limitWriter_bounded.2.1 { buf := [], n := 2 } [0, 1, 2]
      (by decide) (by decide)).trans (by decide)
  · exact limitWriter_bounded.2.2 { buf := [0, 1], n := 0 } [5, 6] rfl
